import Mathlib

/-!
Verification development for the FlashPendle repository.

The repository has two halves:

* an off-chain keeper (`src/keeper.ts`) that scans Pendle markets, estimates
  arbitrage profit from pool reserves under a constant-product model, and ranks
  opportunities;
* two on-chain flash-loan callback contracts (`ArbPendleSplitMerge`, driven by
  the Balancer vault, and `ArbPendleSplitMergeAave`, driven by the Aave pool)
  that execute the borrow / convert / split / swap / merge / unwind / repay
  sequence atomically.

Both are shallowly embedded below.  External collaborators (the Pendle router,
the YT contract, the market, the ERC20 tokens, the RPC reads) are modelled at
their interface boundary: every value a collaborator returns during one attempt
is a field of an environment record, and every state-changing call the contract
makes is recorded in an effect trace.  Machine integers (`uint256` / JS
`bigint`) are modelled as `Nat` (all quantities in the code are non-negative
and no arithmetic in the modelled paths overflows 2^256 under the recorded
collaborator responses); the one signed quantity in the keeper (the
gas-adjusted expected profit, a JS `bigint` that can go negative) is an `Int`.
-/

namespace FlashPendle

/-! ## Price/Reserve Model (keeper.ts, `calculateArbProfit`, lines 224-294)

The on-chain reads made for one market.  A `none` models the corresponding
call throwing; the surrounding `try`/`catch` in `calculateArbProfit` turns any
throw into a `null` result. -/

structure MarketReads where
  readState : Option (Nat × Nat)
  pyIndexCurrent : Option Nat
deriving DecidableEq, Repr

/-- Gas cost estimate from keeper.ts line 279: 500000 gas at 0.1 gwei
(`ethers.parseUnits` of a tenth gwei is 10^8 wei). -/
def GAS_ESTIMATE : Int := 500000 * 100000000

/-- New SY reserve after selling `s` PT into a pool with reserves
`(totalPt, totalSy)`: `k / (totalPt + s)` with `k = totalSy * totalPt`
(keeper.ts lines 249-253). -/
def newSyAfterSell (totalPt totalSy s : Nat) : Nat :=
  totalSy * totalPt / (totalPt + s)

/-- SY received for selling `s` PT (keeper.ts line 254):
`syReserve - newSyReserveAfterSell`. -/
def syFromSellOf (totalPt totalSy s : Nat) : Nat :=
  totalSy - newSyAfterSell totalPt totalSy s

/-- Estimated SY cost of the buy-back leg (keeper.ts lines 257-258): the code
adds a 2% slippage allowance to the trade size and takes the difference of the
two reserve snapshots, which cancels to `s * 102 / 100`. -/
def syForBuyOf (totalPt totalSy s : Nat) : Nat :=
  (newSyAfterSell totalPt totalSy s + s * 102 / 100) - newSyAfterSell totalPt totalSy s

/-- Mint/redeem cost of 0.2% of the trade size (keeper.ts line 268). -/
def mintRedeemCostOf (s : Nat) : Nat :=
  s * 20 / 10000

/-- Profit net of the mint/redeem cost, clamped at zero (keeper.ts line 269). -/
def netProfitOf (totalPt totalSy s : Nat) : Nat :=
  let syProfit := syFromSellOf totalPt totalSy s - syForBuyOf totalPt totalSy s
  if syProfit > mintRedeemCostOf s then syProfit - mintRedeemCostOf s else 0

/-- Profit net of the fixed gas estimate (keeper.ts line 280), a signed
quantity in the code (`bigint` subtraction may go negative). -/
def expectedProfitOf (totalPt totalSy s : Nat) : Int :=
  (netProfitOf totalPt totalSy s : Int) - GAS_ESTIMATE

/-- The Price/Reserve Model, keeper.ts lines 224-294.  Returns `none` for "no
opportunity"; otherwise `(profitBps, expectedProfit)`.  The guard
`totalPt + testSize = 0` mirrors the fact that a JS `bigint` division by zero
throws and is caught by the surrounding `try`/`catch`, which returns `null`. -/
def calculateArbProfit (reads : MarketReads) (testSize : Nat) : Option (Nat × Int) :=
  match reads.readState, reads.pyIndexCurrent with
  | some (totalPt, totalSy), some _ =>
      if totalPt + testSize = 0 then none
      else if syFromSellOf totalPt totalSy testSize ≤ syForBuyOf totalPt totalSy testSize then
        none
      else if netProfitOf totalPt totalSy testSize = 0 then none
      else if expectedProfitOf totalPt totalSy testSize ≤ 0 then none
      else some (netProfitOf totalPt totalSy testSize * 10000 / testSize,
                 expectedProfitOf totalPt totalSy testSize)
  | _, _ => none

/-- The estimated sell output of the Price/Reserve Model as a standalone
function of the trade size `s`, the risk-claim-side reserve `rA` (= totalPt)
and the wrapper-side reserve `rB` (= totalSy): `rB - (rA*rB)/(rA+s)`
(keeper.ts lines 249-254, with `k = syReserve * ptReserve`). -/
def estSellOutput (s rA rB : Nat) : Nat :=
  rB - rB * rA / (rA + s)

theorem estSellOutput_eq_syFromSellOf (s rA rB : Nat) :
    estSellOutput s rA rB = syFromSellOf rA rB s := rfl

/-- C3 counterexample: at `s = rA = rB = 1` the estimated sell output is `1`
(the integer quotient `(1*1)/(1+1)` is `0`), which is strictly positive but
not strictly less than `s * rB / rA = 1`: integer rounding of the quotient can
round the output up to exactly the no-impact rate, so the claimed strict
inequality `output * rA < s * rB` fails. -/
theorem estSellOutput_not_always_below_linear_rate :
    ¬ (0 < estSellOutput 1 1 1 ∧ estSellOutput 1 1 1 * 1 < 1 * 1) := by
  decide

/-- C3 (amended): for `s, rA, rB > 0` the estimated sell output
`rB - (rA*rB)/(rA+s)` is strictly positive, and it is strictly below the
linear rate `s * rB / rA` relaxed by one unit of output: cross-multiplied,
`output * rA < s * rB + rA`.  (The un-relaxed bound `output * rA < s * rB`
fails, e.g. at `s = rA = rB = 1`.) -/
theorem estSellOutput_pos_and_near_linear_rate (s rA rB : Nat)
    (hs : 0 < s) (ha : 0 < rA) (hb : 0 < rB) :
    0 < estSellOutput s rA rB ∧ estSellOutput s rA rB * rA < s * rB + rA := by
  have hpos : 0 < rA + s := by omega
  have hq : rB * rA / (rA + s) < rB := by
    rw [Nat.div_lt_iff_lt_mul hpos]
    have h1 : rA < rA + s := by omega
    exact (mul_lt_mul_left hb).mpr h1
  constructor
  · unfold estSellOutput
    omega
  · unfold estSellOutput
    have hdm : (rA + s) * (rB * rA / (rA + s)) + rB * rA % (rA + s) = rB * rA :=
      Nat.div_add_mod (rB * rA) (rA + s)
    have hr : rB * rA % (rA + s) < rA + s := Nat.mod_lt _ hpos
    set q := rB * rA / (rA + s) with hqdef
    set r := rB * rA % (rA + s) with hrdef
    have hd : rB - q = rB - q := rfl
    have hsub : q + (rB - q) = rB := by omega
    set d := rB - q with hddef
    have hexp1 : (rA + s) * q = rA * q + s * q := by ring
    have hexp2 : (q + d) * rA = q * rA + d * rA := by ring
    have hcomm : rA * q = q * rA := by ring
    have hrB : rB = q + d := by omega
    rw [hrB] at hdm
    have hmul : s * (q + 1) ≤ s * (q + d) := by
      have : q + 1 ≤ q + d := by omega
      exact Nat.mul_le_mul_left s this
    have hsq : s * (q + 1) = s * q + s := by ring
    have hsd : s * (q + d) = s * q + s * d := by ring
    -- d * rA = s * q + r, and s * q + r < s * (q + d) + rA
    have hkey : d * rA = s * q + r := by omega
    have hgoal : d * rA < s * (q + d) + rA := by omega
    calc d * rA < s * (q + d) + rA := hgoal
      _ = s * rB + rA := by rw [hrB]

/-- Witness for the amended C3 at `s = 1`, `rA = 2`, `rB = 3`. -/
theorem estSellOutput_pos_and_near_linear_rate_witness :
    0 < estSellOutput 1 2 3 ∧ estSellOutput 1 2 3 * 2 < 1 * 3 + 2 :=
  estSellOutput_pos_and_near_linear_rate 1 2 3 (by decide) (by decide) (by decide)

/-- C7: the Price/Reserve Model never reports a non-positive opportunity.  An
unreadable `readState` or `pyIndexCurrent` yields `none`; a sell leg that does
not beat the estimated buy-back cost yields `none`; a zero profit net of the
0.2% mint/redeem cost yields `none`; a non-positive profit net of the fixed
gas estimate yields `none`; and every `some` result carries a strictly
positive expected profit. -/
theorem calculateArbProfit_none_or_positive :
    (∀ rd s, rd.readState = none → calculateArbProfit rd s = none)
  ∧ (∀ rd s, rd.pyIndexCurrent = none → calculateArbProfit rd s = none)
  ∧ (∀ pt sy i s, syFromSellOf pt sy s ≤ syForBuyOf pt sy s →
       calculateArbProfit ⟨some (pt, sy), some i⟩ s = none)
  ∧ (∀ pt sy i s, netProfitOf pt sy s = 0 →
       calculateArbProfit ⟨some (pt, sy), some i⟩ s = none)
  ∧ (∀ pt sy i s, expectedProfitOf pt sy s ≤ 0 →
       calculateArbProfit ⟨some (pt, sy), some i⟩ s = none)
  ∧ (∀ rd s r, calculateArbProfit rd s = some r → 0 < r.2) := by
  refine ⟨?_, ?_, ?_, ?_, ?_, ?_⟩
  · intro rd s h
    unfold calculateArbProfit
    rw [h]
  · intro rd s h
    unfold calculateArbProfit
    rw [h]
    rcases rd.readState with _ | ⟨pt, sy⟩ <;> rfl
  · intro pt sy i s h
    unfold calculateArbProfit
    simp only
    split <;> (try split) <;> (try split) <;> (try split) <;>
      first | rfl | exact absurd h (by assumption)
  · intro pt sy i s h
    unfold calculateArbProfit
    simp only
    split <;> (try split) <;> (try split) <;> (try split) <;>
      first | rfl | exact absurd h (by assumption)
  · intro pt sy i s h
    unfold calculateArbProfit
    simp only
    split <;> (try split) <;> (try split) <;> (try split) <;>
      first | rfl | exact absurd h (by assumption)
  · intro rd s r h
    unfold calculateArbProfit at h
    rcases hrs : rd.readState with _ | ⟨pt, sy⟩ <;> rw [hrs] at h
    · exact absurd h (by simp)
    · rcases hpy : rd.pyIndexCurrent with _ | i <;> rw [hpy] at h
      · exact absurd h (by simp)
      · simp only at h
        split at h
        · exact absurd h (by simp)
        · split at h
          · exact absurd h (by simp)
          · split at h
            · exact absurd h (by simp)
            · split at h
              · exact absurd h (by simp)
              · rename_i hbound
                have hr : r = (netProfitOf pt sy s * 10000 / s, expectedProfitOf pt sy s) := by
                  exact (Option.some_inj.mp h).symm
                rw [hr]
                omega

/-- Witness for C7: each clause instantiated at a concrete input; the last
clause at concretely profitable reserves. -/
theorem calculateArbProfit_none_or_positive_witness :
    calculateArbProfit ⟨none, some 1⟩ 5 = none
  ∧ calculateArbProfit ⟨some (3, 4), none⟩ 5 = none
  ∧ calculateArbProfit ⟨some (100, 100), some 1⟩ 10 = none
  ∧ (0 : Int) < (80689, (80689040909090909091 : Int)).2 := by
  refine ⟨calculateArbProfit_none_or_positive.1 ⟨none, some 1⟩ 5 rfl,
          calculateArbProfit_none_or_positive.2.1 ⟨some (3, 4), none⟩ 5 rfl,
          calculateArbProfit_none_or_positive.2.2.1 100 100 1 10 (by decide),
          calculateArbProfit_none_or_positive.2.2.2.2.2 ⟨some (10 ^ 18, 10 ^ 20), some 0⟩
            (10 * 10 ^ 18) (80689, 80689040909090909091) (by decide)⟩

/-! ## Opportunity Scanner (keeper.ts, `findArbOpportunities`, lines 296-345) -/

/-- One ether in wei. -/
def ETHER : Nat := 10 ^ 18

/-- The fixed four-size ladder of candidate trade sizes (keeper.ts
lines 301-306). -/
def testSizes : List Nat := [10 * ETHER, 100 * ETHER, 1000 * ETHER, 10000 * ETHER]

/-- A candidate market as assembled by `fetchActiveMarkets` (keeper.ts
interface `MarketData`).  Addresses are modelled as `Nat`.  The display-only
`name` string and the always-`false` `isExpired` flag of the constructed
record are omitted. -/
structure MarketData where
  address : Nat
  yt : Nat
  pt : Nat
  sy : Nat
  underlying : Nat
  liquidity : Nat
deriving DecidableEq, Repr

/-- An opportunity candidate (keeper.ts interface `ArbOpportunity`). -/
structure ArbOpportunity where
  market : Nat
  yt : Nat
  pt : Nat
  sy : Nat
  underlying : Nat
  profitBps : Nat
  optimalSize : Nat
  expectedProfit : Int
deriving DecidableEq, Repr

/-- The opportunity record built at keeper.ts lines 314-323. -/
def mkOpp (m : MarketData) (bps size : Nat) (ep : Int) : ArbOpportunity :=
  { market := m.address, yt := m.yt, pt := m.pt, sy := m.sy,
    underlying := m.underlying, profitBps := bps, optimalSize := size,
    expectedProfit := ep }

/-- One iteration of the inner size loop (keeper.ts lines 310-329): evaluate
the Price/Reserve Model at `size`, keep the result only if its profit rate
meets the minimum threshold, and replace the running best only on strictly
higher expected profit.  `reads` maps a market address to its on-chain read
responses for this scan cycle. -/
def considerSize (reads : Nat → MarketReads) (minBps : Nat) (m : MarketData)
    (best : Option ArbOpportunity) (size : Nat) : Option ArbOpportunity :=
  match calculateArbProfit (reads m.address) size with
  | none => best
  | some (bps, ep) =>
      if minBps ≤ bps then
        match best with
        | none => some (mkOpp m bps size ep)
        | some b => if b.expectedProfit < ep then some (mkOpp m bps size ep) else some b
      else best

/-- The per-market best candidate over the size ladder (keeper.ts
lines 308-329). -/
def bestOppForMarket (reads : Nat → MarketReads) (minBps : Nat)
    (m : MarketData) : Option ArbOpportunity :=
  testSizes.foldl (considerSize reads minBps m) none

/-- Stable descending insertion by expected profit.  This is the behaviour of
`Array.prototype.sort` (guaranteed stable) with the comparator of keeper.ts
lines 338-342, which orders by `expectedProfit` descending and reports `0` on
ties. -/
def insertByProfit (a : ArbOpportunity) : List ArbOpportunity → List ArbOpportunity
  | [] => [a]
  | b :: t => if b.expectedProfit ≤ a.expectedProfit then a :: b :: t
              else b :: insertByProfit a t

/-- Stable sort, descending by expected profit (keeper.ts lines 338-342). -/
def sortByProfitDesc (l : List ArbOpportunity) : List ArbOpportunity :=
  l.foldr insertByProfit []

/-- The Opportunity Scanner (keeper.ts lines 296-345): collect each market's
best candidate (markets with none are skipped), then sort descending by
expected profit. -/
def findArbOpportunities (reads : Nat → MarketReads) (minBps : Nat)
    (markets : List MarketData) : List ArbOpportunity :=
  sortByProfitDesc (markets.filterMap (bestOppForMarket reads minBps))

theorem sortByProfitDesc_cons (a : ArbOpportunity) (l : List ArbOpportunity) :
    sortByProfitDesc (a :: l) = insertByProfit a (sortByProfitDesc l) := rfl

theorem insertByProfit_perm (a : ArbOpportunity) (l : List ArbOpportunity) :
    (insertByProfit a l).Perm (a :: l) := by
  induction l with
  | nil => simp [insertByProfit]
  | cons b t ih =>
    rw [insertByProfit]
    split
    · exact List.Perm.refl _
    · exact ((ih.cons b).trans (List.Perm.swap a b t))

theorem sortByProfitDesc_perm (l : List ArbOpportunity) :
    (sortByProfitDesc l).Perm l := by
  induction l with
  | nil => exact List.Perm.refl _
  | cons a t ih =>
    rw [sortByProfitDesc_cons]
    exact (insertByProfit_perm a (sortByProfitDesc t)).trans (ih.cons a)

theorem mem_insertByProfit {y a : ArbOpportunity} {l : List ArbOpportunity} :
    y ∈ insertByProfit a l ↔ y = a ∨ y ∈ l := by
  rw [(insertByProfit_perm a l).mem_iff]
  simp

theorem insertByProfit_pairwise (a : ArbOpportunity) (l : List ArbOpportunity)
    (h : l.Pairwise fun x y => y.expectedProfit ≤ x.expectedProfit) :
    (insertByProfit a l).Pairwise fun x y => y.expectedProfit ≤ x.expectedProfit := by
  induction l with
  | nil => simp [insertByProfit]
  | cons b t ih =>
    rw [insertByProfit]
    obtain ⟨hb, ht⟩ := List.pairwise_cons.mp h
    split
    · rename_i hle
      refine List.Pairwise.cons ?_ h
      intro y hy
      rcases List.mem_cons.mp hy with hyb | hyt
      · subst hyb; exact hle
      · exact le_trans (hb y hyt) hle
    · rename_i hgt
      refine List.Pairwise.cons ?_ (ih ht)
      intro y hy
      rcases mem_insertByProfit.mp hy with hya | hyt
      · subst hya; exact le_of_not_le hgt
      · exact hb y hyt

theorem sortByProfitDesc_pairwise (l : List ArbOpportunity) :
    (sortByProfitDesc l).Pairwise fun x y => y.expectedProfit ≤ x.expectedProfit := by
  induction l with
  | nil => simp [sortByProfitDesc]
  | cons a t ih =>
    rw [sortByProfitDesc_cons]
    exact insertByProfit_pairwise a _ ih

theorem insertByProfit_filter_profit (p : Int) (a : ArbOpportunity)
    (l : List ArbOpportunity) :
    (insertByProfit a l).filter (fun o => decide (o.expectedProfit = p))
      = if a.expectedProfit = p
        then a :: l.filter (fun o => decide (o.expectedProfit = p))
        else l.filter (fun o => decide (o.expectedProfit = p)) := by
  induction l with
  | nil =>
    by_cases hap : a.expectedProfit = p <;> simp [insertByProfit, List.filter, hap]
  | cons b t ih =>
    rw [insertByProfit]
    split
    · by_cases hap : a.expectedProfit = p <;> simp [List.filter_cons, hap]
    · rename_i hgt
      by_cases hap : a.expectedProfit = p
      · have hbp : ¬ b.expectedProfit = p := by
          intro hbp
          exact hgt (by rw [hbp, hap])
        simp [List.filter_cons, hap, hbp, ih]
      · by_cases hbp : b.expectedProfit = p <;> simp [List.filter_cons, hap, hbp, ih]

theorem sortByProfitDesc_filter_profit (p : Int) (l : List ArbOpportunity) :
    (sortByProfitDesc l).filter (fun o => decide (o.expectedProfit = p))
      = l.filter (fun o => decide (o.expectedProfit = p)) := by
  induction l with
  | nil => rfl
  | cons a t ih =>
    rw [sortByProfitDesc_cons, insertByProfit_filter_profit]
    by_cases hap : a.expectedProfit = p <;> simp [List.filter_cons, hap, ih]

/-- Soundness of a per-market candidate: its address fields are copied from
the market, its size is on the ladder, the Price/Reserve Model reports exactly
its recorded profit numbers at that size, and its profit rate meets the
threshold. -/
def OppSound (reads : Nat → MarketReads) (minBps : Nat) (m : MarketData)
    (o : ArbOpportunity) : Prop :=
  o.market = m.address ∧ o.yt = m.yt ∧ o.pt = m.pt ∧ o.sy = m.sy ∧
  o.underlying = m.underlying ∧ o.optimalSize ∈ testSizes ∧
  calculateArbProfit (reads m.address) o.optimalSize
    = some (o.profitBps, o.expectedProfit) ∧
  minBps ≤ o.profitBps

theorem considerSize_sound (reads : Nat → MarketReads) (minBps : Nat)
    (m : MarketData) (acc : Option ArbOpportunity) (s : Nat)
    (hs : s ∈ testSizes)
    (hacc : ∀ b, acc = some b → OppSound reads minBps m b) :
    ∀ o, considerSize reads minBps m acc s = some o → OppSound reads minBps m o := by
  intro o h
  rcases hc : calculateArbProfit (reads m.address) s with _ | ⟨bps, ep⟩ <;>
    simp only [considerSize, hc] at h
  · exact hacc o h
  · split at h
    · rename_i hbps
      rcases hb : acc with _ | b <;> simp only [hb] at h
      · injection h with h2
        subst h2
        exact ⟨rfl, rfl, rfl, rfl, rfl, hs, hc, hbps⟩
      · split at h
        · injection h with h2
          subst h2
          exact ⟨rfl, rfl, rfl, rfl, rfl, hs, hc, hbps⟩
        · injection h with h2
          subst h2
          exact hacc b hb
    · exact hacc o h

theorem foldl_considerSize_sound (reads : Nat → MarketReads) (minBps : Nat)
    (m : MarketData) :
    ∀ (L : List Nat), (∀ s ∈ L, s ∈ testSizes) →
      ∀ (acc : Option ArbOpportunity),
        (∀ b, acc = some b → OppSound reads minBps m b) →
        ∀ o, L.foldl (considerSize reads minBps m) acc = some o →
          OppSound reads minBps m o := by
  intro L
  induction L with
  | nil => intro _ acc hacc o h; exact hacc o h
  | cons s L ih =>
    intro hsub acc hacc o h
    rw [List.foldl_cons] at h
    exact ih (fun x hx => hsub x (List.mem_cons_of_mem s hx))
      (considerSize reads minBps m acc s)
      (considerSize_sound reads minBps m acc s (hsub s (List.mem_cons_self s L)) hacc)
      o h

theorem foldl_considerSize_mono (reads : Nat → MarketReads) (minBps : Nat)
    (m : MarketData) :
    ∀ (L : List Nat) (acc : Option ArbOpportunity) (b : ArbOpportunity),
      acc = some b →
      ∃ o, L.foldl (considerSize reads minBps m) acc = some o ∧
        b.expectedProfit ≤ o.expectedProfit := by
  intro L
  induction L with
  | nil => intro acc b hb; exact ⟨b, hb, le_refl _⟩
  | cons s L ih =>
    intro acc b hb
    rw [List.foldl_cons]
    have hstep : ∃ c, considerSize reads minBps m acc s = some c ∧
        b.expectedProfit ≤ c.expectedProfit := by
      rcases hc : calculateArbProfit (reads m.address) s with _ | ⟨bps, ep⟩ <;>
        simp only [considerSize, hc]
      · exact ⟨b, hb, le_refl _⟩
      · split
        · rw [hb]
          simp only
          split
          · rename_i hlt
            exact ⟨mkOpp m bps s ep, rfl, le_of_lt hlt⟩
          · exact ⟨b, rfl, le_refl _⟩
        · exact ⟨b, hb, le_refl _⟩
    obtain ⟨c, hc1, hc2⟩ := hstep
    obtain ⟨o, ho1, ho2⟩ := ih (considerSize reads minBps m acc s) c hc1
    exact ⟨o, ho1, le_trans hc2 ho2⟩

theorem foldl_considerSize_dominant (reads : Nat → MarketReads) (minBps : Nat)
    (m : MarketData) :
    ∀ (L : List Nat) (acc : Option ArbOpportunity) (s : Nat), s ∈ L →
      ∀ bps ep, calculateArbProfit (reads m.address) s = some (bps, ep) →
        minBps ≤ bps →
        ∃ o, L.foldl (considerSize reads minBps m) acc = some o ∧
          ep ≤ o.expectedProfit := by
  intro L
  induction L with
  | nil => intro acc s hs; exact absurd hs (List.not_mem_nil s)
  | cons s0 L ih =>
    intro acc s hs bps ep hc hbps
    rw [List.foldl_cons]
    rcases List.mem_cons.mp hs with hss0 | hsL
    · subst hss0
      have hstep : ∃ c, considerSize reads minBps m acc s = some c ∧
          ep ≤ c.expectedProfit := by
        simp only [considerSize, hc]
        rw [if_pos hbps]
        rcases acc with _ | b
        · exact ⟨mkOpp m bps s ep, rfl, le_refl _⟩
        · simp only
          split
          · exact ⟨mkOpp m bps s ep, rfl, le_refl _⟩
          · rename_i hnlt
            exact ⟨b, rfl, le_of_not_lt hnlt⟩
      obtain ⟨c, hc1, hc2⟩ := hstep
      obtain ⟨o, ho1, ho2⟩ :=
        foldl_considerSize_mono reads minBps m L (considerSize reads minBps m acc s) c hc1
      exact ⟨o, ho1, le_trans hc2 ho2⟩
    · exact ih (considerSize reads minBps m acc s0) s hsL bps ep hc hbps

/-! ## Market fetch (keeper.ts, `fetchActiveMarkets`, lines 121-222) -/

/-- A raw market entry as returned by the Pendle API.  `none` models a
missing/falsy field; `expiry` is the already-interpreted expiry timestamp
(the code accepts a numeric timestamp or a parseable date string and skips
entries whose expiry is neither, which is `none` here). -/
structure RawMarket where
  address : Option Nat
  pt : Option Nat
  yt : Option Nat
  sy : Option Nat
  expiry : Option Nat
  underlyingAsset : Option Nat
  liquidityUsd : Option Nat
  totalLiquidity : Option Nat
deriving DecidableEq, Repr

/-- Liquidity resolution of keeper.ts line 184:
`marketData.liquidity?.usd || marketData.totalLiquidity || 0` (JS `||` falls
through on a missing field and on `0`). -/
def resolveLiquidity (lu tl : Option Nat) : Nat :=
  match lu with
  | some u => if u = 0 then tl.getD 0 else u
  | none => tl.getD 0

/-- Underlying-asset resolution of keeper.ts line 181:
`marketData.underlyingAsset?.address || marketData.sy.address`. -/
def resolveUnderlying (ua : Option Nat) (sy : Nat) : Nat :=
  match ua with
  | some u => if u = 0 then sy else u
  | none => sy

/-- Processing of one raw API entry (keeper.ts lines 142-213): skip it unless
all identifier fields are present, the expiry is interpretable and in the
future, the resolved liquidity is at least $100,000, and the YT contract does
not report `isExpired() = true` (`ytExpired yt = none` models that call
throwing, in which case the code includes the market anyway). -/
def processRawMarket (now : Nat) (ytExpired : Nat → Option Bool)
    (r : RawMarket) : Option MarketData :=
  match r.address, r.pt, r.yt, r.sy with
  | some addr, some pt, some yt, some sy =>
      match r.expiry with
      | none => none
      | some expiry =>
          if expiry ≤ now then none
          else if resolveLiquidity r.liquidityUsd r.totalLiquidity < 100000 then none
          else if ytExpired yt = some true then none
          else some { address := addr, yt := yt, pt := pt, sy := sy,
                      underlying := resolveUnderlying r.underlyingAsset sy,
                      liquidity := resolveLiquidity r.liquidityUsd r.totalLiquidity }
  | _, _, _, _ => none

/-- The active-market list (keeper.ts lines 121-222).  `apiResults = none`
models a failed or malformed API response, for which the code returns the
empty list. -/
def fetchActiveMarkets (apiResults : Option (List RawMarket)) (now : Nat)
    (ytExpired : Nat → Option Bool) : List MarketData :=
  match apiResults with
  | none => []
  | some rs => rs.filterMap (processRawMarket now ytExpired)

theorem processRawMarket_some (now : Nat) (ytExpired : Nat → Option Bool)
    (r : RawMarket) (m : MarketData)
    (h : processRawMarket now ytExpired r = some m) :
    100000 ≤ m.liquidity ∧ ytExpired m.yt ≠ some true ∧
      ∃ e, r.expiry = some e ∧ now < e := by
  rcases ha : r.address with _ | addr <;>
  rcases hp : r.pt with _ | pt <;>
  rcases hy : r.yt with _ | yt <;>
  rcases hsy : r.sy with _ | sy <;>
    simp only [processRawMarket, ha, hp, hy, hsy] at h <;>
    try exact absurd h (by simp)
  rcases hex : r.expiry with _ | e <;> simp only [hex] at h
  · exact absurd h (by simp)
  · split at h
    · exact absurd h (by simp)
    · split at h
      · exact absurd h (by simp)
      · split at h
        · exact absurd h (by simp)
        · rename_i hnow hliq hyt
          injection h with h2
          subst h2
          refine ⟨?_, hyt, e, rfl, by omega⟩
          show 100000 ≤ resolveLiquidity r.liquidityUsd r.totalLiquidity
          omega

/-- C8: the Opportunity Scanner's output is a permutation of the per-market
best candidates (hence at most one candidate per market), it is sorted
descending by expected profit, ties keep the per-market encounter order
(stability, stated through filters at each profit level), each per-market
best candidate is sound (its size is on the four-size ladder, the
Price/Reserve Model reports exactly its recorded numbers there, and its
profit rate meets the threshold) and dominates every qualifying
ladder size of that market, and a market with any qualifying ladder size
contributes a candidate. -/
theorem findArbOpportunities_spec (reads : Nat → MarketReads) (minBps : Nat)
    (markets : List MarketData) :
    (findArbOpportunities reads minBps markets).Perm
        (markets.filterMap (bestOppForMarket reads minBps))
  ∧ (findArbOpportunities reads minBps markets).Pairwise
        (fun x y => y.expectedProfit ≤ x.expectedProfit)
  ∧ (∀ p : Int,
      (findArbOpportunities reads minBps markets).filter
          (fun o => decide (o.expectedProfit = p))
        = (markets.filterMap (bestOppForMarket reads minBps)).filter
            (fun o => decide (o.expectedProfit = p)))
  ∧ (∀ m o, bestOppForMarket reads minBps m = some o →
        OppSound reads minBps m o
      ∧ ∀ s ∈ testSizes, ∀ bps ep,
          calculateArbProfit (reads m.address) s = some (bps, ep) →
          minBps ≤ bps → ep ≤ o.expectedProfit)
  ∧ (∀ m s, s ∈ testSizes → ∀ bps ep,
        calculateArbProfit (reads m.address) s = some (bps, ep) →
        minBps ≤ bps → ∃ o, bestOppForMarket reads minBps m = some o) := by
  refine ⟨sortByProfitDesc_perm _, sortByProfitDesc_pairwise _,
          fun p => sortByProfitDesc_filter_profit p _, ?_, ?_⟩
  · intro m o ho
    have ho2 : testSizes.foldl (considerSize reads minBps m) none = some o := ho
    refine ⟨foldl_considerSize_sound reads minBps m testSizes (fun s hs => hs) none
      (fun b hb => Option.noConfusion hb) o ho2, ?_⟩
    intro s hs bps ep hc hbps
    obtain ⟨o2, ho3, hep⟩ :=
      foldl_considerSize_dominant reads minBps m testSizes none s hs bps ep hc hbps
    rw [ho2] at ho3
    injection ho3 with h2
    subst h2
    exact hep
  · intro m s hs bps ep hc hbps
    obtain ⟨o, ho, _⟩ :=
      foldl_considerSize_dominant reads minBps m testSizes none s hs bps ep hc hbps
    exact ⟨o, ho⟩

/-- C9: every market produced by `fetchActiveMarkets` has resolved liquidity
at least $100,000, a YT contract that does not report `isExpired() = true`,
and an interpreted expiry strictly in the future; and every opportunity the
scanner emits refers to one of those markets (scanner output market set ⊆
non-expired, sufficiently-liquid input markets). -/
theorem fetchActiveMarkets_excludes (apiResults : Option (List RawMarket))
    (now : Nat) (ytExpired : Nat → Option Bool)
    (reads : Nat → MarketReads) (minBps : Nat) :
    (∀ m ∈ fetchActiveMarkets apiResults now ytExpired,
        100000 ≤ m.liquidity
      ∧ ytExpired m.yt ≠ some true
      ∧ ∃ rs, apiResults = some rs ∧ ∃ r ∈ rs,
          processRawMarket now ytExpired r = some m ∧ ∃ e, r.expiry = some e ∧ now < e)
  ∧ (∀ o ∈ findArbOpportunities reads minBps (fetchActiveMarkets apiResults now ytExpired),
        ∃ m ∈ fetchActiveMarkets apiResults now ytExpired, o.market = m.address) := by
  constructor
  · intro m hm
    rcases apiResults with _ | rs
    · exact absurd hm (by simp [fetchActiveMarkets])
    · simp only [fetchActiveMarkets] at hm
      obtain ⟨r, hr, hpr⟩ := List.mem_filterMap.mp hm
      obtain ⟨hliq, hyt, e, hex, hnow⟩ := processRawMarket_some now ytExpired r m hpr
      exact ⟨hliq, hyt, rs, rfl, r, hr, hpr, e, hex, hnow⟩
  · intro o ho
    have ho2 : o ∈ (fetchActiveMarkets apiResults now ytExpired).filterMap
        (bestOppForMarket reads minBps) :=
      (sortByProfitDesc_perm _).mem_iff.mp ho
    obtain ⟨m, hm, hbm⟩ := List.mem_filterMap.mp ho2
    have hbm2 : testSizes.foldl (considerSize reads minBps m) none = some o := hbm
    have hsound := foldl_considerSize_sound reads minBps m testSizes (fun s hs => hs)
      none (fun b hb => Option.noConfusion hb) o hbm2
    exact ⟨m, hm, hsound.1⟩

/-! ### Concrete fixtures for the scanner witnesses -/

/-- A read response with reserves that make the first ladder size profitable. -/
def readsW : Nat → MarketReads := fun _ => ⟨some (10 ^ 18, 10 ^ 20), some 0⟩

def marketW : MarketData :=
  { address := 100, yt := 101, pt := 102, sy := 103, underlying := 104,
    liquidity := 10000000 }

def oppW : ArbOpportunity :=
  { market := 100, yt := 101, pt := 102, sy := 103, underlying := 104,
    profitBps := 80689, optimalSize := 10 * ETHER,
    expectedProfit := 80689040909090909091 }

def rawW : RawMarket :=
  { address := some 100, pt := some 102, yt := some 101, sy := some 103,
    expiry := some 5000, underlyingAsset := some 104,
    liquidityUsd := some 10000000, totalLiquidity := none }

def ytExpW : Nat → Option Bool := fun _ => some false

/-- Witness for C8 at the concrete fixtures. -/
theorem findArbOpportunities_spec_witness :
    (findArbOpportunities readsW 15 [marketW]).Perm
        ([marketW].filterMap (bestOppForMarket readsW 15))
  ∧ OppSound readsW 15 marketW oppW
  ∧ (80689040909090909091 : Int) ≤ oppW.expectedProfit
  ∧ ∃ o, bestOppForMarket readsW 15 marketW = some o := by
  have h := findArbOpportunities_spec readsW 15 [marketW]
  have h4 := h.2.2.2.1 marketW oppW rfl
  refine ⟨h.1, h4.1, ?_, ?_⟩
  · exact h4.2 (10 * ETHER) (by simp [testSizes]) 80689 80689040909090909091 rfl
      (by decide)
  · exact h.2.2.2.2 marketW (10 * ETHER) (by simp [testSizes]) 80689
      80689040909090909091 rfl (by decide)

/-- Witness for C9 at the concrete fixtures. -/
theorem fetchActiveMarkets_excludes_witness :
    (100000 ≤ marketW.liquidity
      ∧ ytExpW marketW.yt ≠ some true
      ∧ ∃ rs, (some [rawW] : Option (List RawMarket)) = some rs ∧ ∃ r ∈ rs,
          processRawMarket 1000 ytExpW r = some marketW
        ∧ ∃ e, r.expiry = some e ∧ 1000 < e)
  ∧ ∃ m ∈ fetchActiveMarkets (some [rawW]) 1000 ytExpW, oppW.market = m.address := by
  have h := fetchActiveMarkets_excludes (some [rawW]) 1000 ytExpW readsW 15
  refine ⟨h.1 marketW (by decide), h.2 oppW ?_⟩
  have : findArbOpportunities readsW 15 (fetchActiveMarkets (some [rawW]) 1000 ytExpW)
      = [oppW] := rfl
  rw [this]
  simp

/-! ## Execution State Machine: the flash-loan callbacks

`ArbPendleSplitMerge.receiveFlashLoan` (Balancer-vault variant,
`src/unnamed/part_002`, lines 53-162) and
`ArbPendleSplitMergeAave.executeOperation` (Aave-pool variant,
`src/unnamed/part_003`, lines 79-194).

Addresses are `Nat`.  Collaborator return values for one attempt live in
`Env`; the state-changing external calls the contract makes are recorded in a
trace of `Effect`s (view calls such as `isExpired`, `PT()`, `SY()`,
`balanceOf` and `getPool` are reads and are not traced).  An error outcome
models a Solidity `revert`: the surrounding transaction discards every traced
effect, so the trace paired with an error is the list of calls attempted
before the revert was raised.  Collaborator-internal reverts (e.g. the router
rejecting `minTokenOut`, or an ERC20 transfer without balance) abort the
attempt inside the collaborator and are outside this embedding; the recorded
`Env` values are the responses of collaborators that returned. -/

/-- The value `type(uint256).max` used for the blanket approvals. -/
def MAXUINT : Nat := 2 ^ 256 - 1

inductive ArbError
  | NotVault
  | Unauthorized
  | Expired
  | InsufficientOutput
  | NoProfit
deriving DecidableEq, Repr

inductive Outcome
  | ok (profit : Nat)
  | err (e : ArbError)
deriving DecidableEq, Repr

/-- State-changing external calls made by the callbacks, in source order. -/
inductive Effect
  | approve (token spender amount : Nat)
  | transfer (token dst amount : Nat)
  | mintSyFromToken (tokenIn netTokenIn minSyOut : Nat)
  | mintPY
  | swapExactPtForSy (exactPtIn : Nat)
  | swapSyForExactPt (exactPtOut : Nat)
  | redeemPY
  | redeemSyToToken (netSyIn minTokenOut : Nat)
deriving DecidableEq, Repr

/-- The `ArbParams` struct shared (field for field) by the two contracts; the
first field is the lender (`vault` in the Balancer variant, `pool` in the
Aave variant) and is not read inside either callback. -/
structure ArbParams where
  lender : Nat
  router : Nat
  underlying : Nat
  yt : Nat
  market : Nat
  flashAmount : Nat
  pyToCycle : Nat
  minUnderlyingOut : Nat
deriving DecidableEq, Repr

/-- Responses of the external collaborators during one callback attempt:
`ptAddr`/`syAddr` are `YT.PT()`/`YT.SY()`; `isExpired` is `YT.isExpired()`;
`syReceived` is the router's `mintSyFromToken` return; `pyMinted` is
`YT.mintPY`; `syOutFromSell`/`syInForBuy` are the two market swap returns
(read but unused by the contract); `syFromRedeem` is `YT.redeemPY` (unused);
`syTotal` is `SY.balanceOf(this)` before the unwind; `underlyingOut` is the
router's `redeemSyToToken` return; `initialUnderlying` is any pre-existing
underlying-token dust held by the contract when the loan arrives. -/
structure Env where
  ptAddr : Nat
  syAddr : Nat
  isExpired : Bool
  syReceived : Nat
  pyMinted : Nat
  syOutFromSell : Nat
  syInForBuy : Nat
  syFromRedeem : Nat
  syTotal : Nat
  underlyingOut : Nat
  initialUnderlying : Nat
deriving DecidableEq, Repr

/-- The conversion-phase effect sequence shared verbatim by the two callback
bodies (part_002 lines 66-149 / part_003 lines 98-178): six blanket
approvals, the underlying→SY mint, the SY transfer to the YT contract and the
PY mint (clamped to `min(syReceived, pyToCycle)`), the two market swap legs
at `cycle = min(pyMinted, pyToCycle)`, the PY redemption, and the SY→underlying
unwind of the full SY balance.  `u` is the flash-borrowed token reported by
the lender (`tokens[0]` / `asset`); the router legs use `p.underlying`. -/
def arbConvertEffects (ROUTER u flashAmt : Nat) (p : ArbParams) (env : Env) :
    List Effect :=
  [Effect.approve env.syAddr p.yt MAXUINT,
   Effect.approve env.ptAddr p.yt MAXUINT,
   Effect.approve env.ptAddr p.market MAXUINT,
   Effect.approve env.syAddr p.market MAXUINT,
   Effect.approve env.syAddr ROUTER MAXUINT,
   Effect.approve u ROUTER MAXUINT,
   Effect.mintSyFromToken p.underlying flashAmt 0,
   Effect.transfer env.syAddr p.yt
     (if env.syReceived > p.pyToCycle then p.pyToCycle else env.syReceived),
   Effect.mintPY,
   Effect.swapExactPtForSy
     (if env.pyMinted > p.pyToCycle then p.pyToCycle else env.pyMinted),
   Effect.swapSyForExactPt
     (if env.pyMinted > p.pyToCycle then p.pyToCycle else env.pyMinted),
   Effect.redeemPY,
   Effect.redeemSyToToken env.syTotal p.minUnderlyingOut]

/-- Balance of the flash-borrowed token `u` held by the contract at
settlement time: the contract enters the callback holding its dust plus the
loan; the mint step pays `flashAmt` of `p.underlying` to the router and the
unwind returns `env.underlyingOut` of `p.underlying`, which move the balance
of `u` exactly when `p.underlying = u` (every call made through `executeArb`
has `p.underlying = tokens[0] = asset`). -/
def balanceAtSettlement (u flashAmt : Nat) (p : ArbParams) (env : Env) : Nat :=
  if p.underlying = u then env.initialUnderlying + env.underlyingOut
  else env.initialUnderlying + flashAmt

/-- `ArbPendleSplitMerge.receiveFlashLoan` (part_002, lines 53-162).  `VAULT`,
`ROUTER` and `owner` are the contract's fields; `msgSender` is the caller;
`token0`, `amount0`, `fee0` are the sole elements of the singleton calldata
arrays `tokens`, `amounts`, `feeAmounts` supplied by the vault; `p` is the
decoded `userData`.  After the repayment check, the contract transfers the
repayment to the vault, reads its remaining balance as profit, reverts
`NoProfit` on zero and otherwise transfers the profit to the owner. -/
def receiveFlashLoan (VAULT ROUTER owner msgSender token0 amount0 fee0 : Nat)
    (p : ArbParams) (env : Env) : List Effect × Outcome :=
  if msgSender ≠ VAULT then ([], Outcome.err ArbError.NotVault)
  else if env.isExpired then ([], Outcome.err ArbError.Expired)
  else if env.underlyingOut < amount0 + fee0 then
    (arbConvertEffects ROUTER token0 amount0 p env,
     Outcome.err ArbError.InsufficientOutput)
  else if balanceAtSettlement token0 amount0 p env - (amount0 + fee0) = 0 then
    (arbConvertEffects ROUTER token0 amount0 p env
       ++ [Effect.transfer token0 VAULT (amount0 + fee0)],
     Outcome.err ArbError.NoProfit)
  else
    (arbConvertEffects ROUTER token0 amount0 p env
       ++ [Effect.transfer token0 VAULT (amount0 + fee0),
           Effect.transfer token0 owner
             (balanceAtSettlement token0 amount0 p env - (amount0 + fee0))],
     Outcome.ok (balanceAtSettlement token0 amount0 p env - (amount0 + fee0)))

/-- `ArbPendleSplitMergeAave.executeOperation` (part_003, lines 79-194).
`pool` is the response of `IPoolAddressesProvider.getPool()` (a view read);
`selfAddr` is `address(this)`; `asset`, `amount`, `premium`, `initiator` are
the callback arguments.  After the repayment check the contract approves the
pool for the repayment (Aave pulls it after the callback returns), computes
`balanceOf(this) - repayAmount` as profit, reverts `NoProfit` on zero and
otherwise transfers the profit to the owner. -/
def executeOperation (ROUTER owner selfAddr pool msgSender asset amount premium
    initiator : Nat) (p : ArbParams) (env : Env) : List Effect × Outcome :=
  if initiator ≠ selfAddr then ([], Outcome.err ArbError.Unauthorized)
  else if msgSender ≠ pool then ([], Outcome.err ArbError.Unauthorized)
  else if env.isExpired then ([], Outcome.err ArbError.Expired)
  else if env.underlyingOut < amount + premium then
    (arbConvertEffects ROUTER asset amount p env,
     Outcome.err ArbError.InsufficientOutput)
  else if balanceAtSettlement asset amount p env - (amount + premium) = 0 then
    (arbConvertEffects ROUTER asset amount p env
       ++ [Effect.approve asset pool (amount + premium)],
     Outcome.err ArbError.NoProfit)
  else
    (arbConvertEffects ROUTER asset amount p env
       ++ [Effect.approve asset pool (amount + premium),
           Effect.transfer asset owner
             (balanceAtSettlement asset amount p env - (amount + premium))],
     Outcome.ok (balanceAtSettlement asset amount p env - (amount + premium)))

/-- The contracts clamp with `cond > bound ? bound : cond`, which is `min`. -/
theorem ite_gt_eq_min (a b : Nat) : (if a > b then b else a) = min a b := by
  split <;> omega

/-- In an authorized, non-expired attempt the Balancer callback's trace starts
with the conversion-phase effects. -/
theorem convert_mem_receiveFlashLoan (VAULT ROUTER owner token0 amount0 fee0 : Nat)
    (p : ArbParams) (env : Env) (hexp : env.isExpired = false) :
    ∀ e ∈ arbConvertEffects ROUTER token0 amount0 p env,
      e ∈ (receiveFlashLoan VAULT ROUTER owner VAULT token0 amount0 fee0 p env).1 := by
  intro e he
  unfold receiveFlashLoan
  rw [if_neg (by simp), if_neg (by simp [hexp])]
  split
  · exact he
  · split <;> simp [List.mem_append, he]

/-- In an authorized, non-expired attempt the Aave callback's trace starts
with the conversion-phase effects. -/
theorem convert_mem_executeOperation (ROUTER owner selfAddr pool asset amount premium : Nat)
    (p : ArbParams) (env : Env) (hexp : env.isExpired = false) :
    ∀ e ∈ arbConvertEffects ROUTER asset amount p env,
      e ∈ (executeOperation ROUTER owner selfAddr pool pool asset amount premium
            selfAddr p env).1 := by
  intro e he
  unfold executeOperation
  rw [if_neg (by simp), if_neg (by simp), if_neg (by simp [hexp])]
  split
  · exact he
  · split <;> simp [List.mem_append, he]

/-- C2: a flash-loan callback invocation whose caller is not the lender (or,
in the Aave variant, whose declared initiator is not the contract itself)
reverts with `NotVault` / `Unauthorized` for every parameter payload and
environment, with an empty effect trace (no token operation occurs). -/
theorem callback_unauthorized_reverts :
    (∀ VAULT ROUTER owner msgSender token0 amount0 fee0 (p : ArbParams) (env : Env),
        msgSender ≠ VAULT →
        receiveFlashLoan VAULT ROUTER owner msgSender token0 amount0 fee0 p env
          = ([], Outcome.err ArbError.NotVault))
  ∧ (∀ ROUTER owner selfAddr pool msgSender asset amount premium initiator
        (p : ArbParams) (env : Env),
        initiator ≠ selfAddr ∨ msgSender ≠ pool →
        executeOperation ROUTER owner selfAddr pool msgSender asset amount premium
          initiator p env = ([], Outcome.err ArbError.Unauthorized)) := by
  constructor
  · intro VAULT ROUTER owner msgSender token0 amount0 fee0 p env h
    rw [receiveFlashLoan, if_pos h]
  · intro ROUTER owner selfAddr pool msgSender asset amount premium initiator p env h
    rcases h with h | h
    · rw [executeOperation, if_pos h]
    · unfold executeOperation
      split <;> first | rfl | (rw [if_pos h])

/-- Witness for C2 at concrete addresses. -/
theorem callback_unauthorized_reverts_witness :
    receiveFlashLoan 1 2 3 9 50 100 5
        ⟨1, 2, 50, 60, 70, 100, 40, 90⟩
        ⟨71, 72, false, 80, 55, 0, 0, 0, 33, 95, 7⟩
      = ([], Outcome.err ArbError.NotVault)
  ∧ executeOperation 2 3 4 5 5 50 100 5 9
        ⟨1, 2, 50, 60, 70, 100, 40, 90⟩
        ⟨71, 72, false, 80, 55, 0, 0, 0, 33, 95, 7⟩
      = ([], Outcome.err ArbError.Unauthorized) :=
  ⟨callback_unauthorized_reverts.1 1 2 3 9 50 100 5 _ _ (by decide),
   callback_unauthorized_reverts.2 2 3 4 5 5 50 100 5 9 _ _ (Or.inl (by decide))⟩

/-- C4: when the authorization checks pass and the yield token reports
`isExpired() = true`, both callbacks abort with `Expired` and an empty
effect trace: no approval, no router mint/redeem call, and no market swap
occurs in the attempt. -/
theorem callback_expired_aborts
    (VAULT ROUTER owner selfAddr pool token0 amount0 fee0 : Nat)
    (p : ArbParams) (env : Env) (hexp : env.isExpired = true) :
    receiveFlashLoan VAULT ROUTER owner VAULT token0 amount0 fee0 p env
      = ([], Outcome.err ArbError.Expired)
  ∧ executeOperation ROUTER owner selfAddr pool pool token0 amount0 fee0 selfAddr p env
      = ([], Outcome.err ArbError.Expired) := by
  constructor
  · rw [receiveFlashLoan, if_neg (by simp), if_pos (by simp [hexp])]
  · rw [executeOperation, if_neg (by simp), if_neg (by simp), if_pos (by simp [hexp])]

/-- Witness for C4 at concrete inputs. -/
theorem callback_expired_aborts_witness :
    receiveFlashLoan 1 2 3 1 50 100 5
        ⟨1, 2, 50, 60, 70, 100, 40, 90⟩
        ⟨71, 72, true, 80, 55, 0, 0, 0, 33, 95, 7⟩
      = ([], Outcome.err ArbError.Expired)
  ∧ executeOperation 2 3 4 5 5 50 100 5 4
        ⟨1, 2, 50, 60, 70, 100, 40, 90⟩
        ⟨71, 72, true, 80, 55, 0, 0, 0, 33, 95, 7⟩
      = ([], Outcome.err ArbError.Expired) :=
  callback_expired_aborts 1 2 3 4 5 50 100 5 _ _ rfl

/-- C1: when the realized output of the final redemption is strictly below
the required repayment (borrowed amount plus fee/premium), both callbacks
fail with `InsufficientOutput`, and the trace at that point is exactly the
conversion-phase effects: it contains no repayment transfer to the lender, no
profit transfer to the owner, and no repayment approval to the pool (under
the distinct-address hypotheses that rule out the YT/market/router addresses
aliasing the lender or owner), so the enclosing revert leaves no net effect. -/
theorem insufficient_output_reverts_before_settlement
    (VAULT ROUTER owner selfAddr pool token0 amount0 fee0 : Nat)
    (p : ArbParams) (env : Env)
    (hexp : env.isExpired = false)
    (hlt : env.underlyingOut < amount0 + fee0)
    (hyV : p.yt ≠ VAULT) (hyO : p.yt ≠ owner)
    (hyP : p.yt ≠ pool) (hmP : p.market ≠ pool) (hrP : ROUTER ≠ pool) :
    receiveFlashLoan VAULT ROUTER owner VAULT token0 amount0 fee0 p env
      = (arbConvertEffects ROUTER token0 amount0 p env,
         Outcome.err ArbError.InsufficientOutput)
  ∧ executeOperation ROUTER owner selfAddr pool pool token0 amount0 fee0 selfAddr p env
      = (arbConvertEffects ROUTER token0 amount0 p env,
         Outcome.err ArbError.InsufficientOutput)
  ∧ (∀ t a, Effect.transfer t VAULT a ∉ arbConvertEffects ROUTER token0 amount0 p env)
  ∧ (∀ t a, Effect.transfer t owner a ∉ arbConvertEffects ROUTER token0 amount0 p env)
  ∧ (∀ t a, Effect.approve t pool a ∉ arbConvertEffects ROUTER token0 amount0 p env) := by
  refine ⟨?_, ?_, ?_, ?_, ?_⟩
  · rw [receiveFlashLoan, if_neg (by simp), if_neg (by simp [hexp]), if_pos hlt]
  · rw [executeOperation, if_neg (by simp), if_neg (by simp), if_neg (by simp [hexp]),
      if_pos hlt]
  · intro t a
    simp [arbConvertEffects, hyV.symm]
  · intro t a
    simp [arbConvertEffects, hyO.symm]
  · intro t a
    simp [arbConvertEffects, hyP.symm, hmP.symm, hrP.symm]

/-- Witness for C1 at concrete inputs (`underlyingOut = 95 < 100 + 5`). -/
theorem insufficient_output_reverts_before_settlement_witness :
    receiveFlashLoan 1 2 3 1 50 100 5
        ⟨1, 2, 50, 60, 70, 100, 40, 90⟩
        ⟨71, 72, false, 80, 55, 0, 0, 0, 33, 95, 7⟩
      = (arbConvertEffects 2 50 100 ⟨1, 2, 50, 60, 70, 100, 40, 90⟩
           ⟨71, 72, false, 80, 55, 0, 0, 0, 33, 95, 7⟩,
         Outcome.err ArbError.InsufficientOutput)
  ∧ executeOperation 2 3 4 5 5 50 100 5 4
        ⟨1, 2, 50, 60, 70, 100, 40, 90⟩
        ⟨71, 72, false, 80, 55, 0, 0, 0, 33, 95, 7⟩
      = (arbConvertEffects 2 50 100 ⟨1, 2, 50, 60, 70, 100, 40, 90⟩
           ⟨71, 72, false, 80, 55, 0, 0, 0, 33, 95, 7⟩,
         Outcome.err ArbError.InsufficientOutput)
  ∧ (∀ t a, Effect.transfer t 1 a ∉ arbConvertEffects 2 50 100
        ⟨1, 2, 50, 60, 70, 100, 40, 90⟩ ⟨71, 72, false, 80, 55, 0, 0, 0, 33, 95, 7⟩)
  ∧ (∀ t a, Effect.transfer t 3 a ∉ arbConvertEffects 2 50 100
        ⟨1, 2, 50, 60, 70, 100, 40, 90⟩ ⟨71, 72, false, 80, 55, 0, 0, 0, 33, 95, 7⟩)
  ∧ (∀ t a, Effect.approve t 5 a ∉ arbConvertEffects 2 50 100
        ⟨1, 2, 50, 60, 70, 100, 40, 90⟩ ⟨71, 72, false, 80, 55, 0, 0, 0, 33, 95, 7⟩) :=
  insufficient_output_reverts_before_settlement 1 2 3 4 5 50 100 5 _ _
    rfl (by decide) (by decide) (by decide) (by decide) (by decide) (by decide)

/-- Concrete parameters for the contract witnesses:
vault/pool `1`, router `2`, underlying `50`, yt `60`, market `70`,
flash amount `100`, cycle request `40`, minimum output `90`. -/
def pFix : ArbParams := ⟨1, 2, 50, 60, 70, 100, 40, 90⟩

/-- Concrete collaborator responses for the contract witnesses:
PT `71`, SY `72`, not expired, `80` SY minted, `55` PY minted, `33` SY at
unwind, `95` underlying realized, `7` of pre-existing dust. -/
def envFix : Env := ⟨71, 72, false, 80, 55, 0, 0, 0, 33, 95, 7⟩

/-- C6: in every authorized, non-expired attempt (of either variant) the
wrapper amount sent for splitting is `min(syReceived, pyToCycle)` and both
market swap legs use `cycle = min(pyMinted, pyToCycle)`; consequently the
swapped cycle amount never exceeds the requested cycle amount or the split
tokens actually minted. -/
theorem cycle_double_clamped
    (VAULT ROUTER owner selfAddr pool token0 amount0 fee0 : Nat)
    (p : ArbParams) (env : Env) (hexp : env.isExpired = false) :
    Effect.transfer env.syAddr p.yt (min env.syReceived p.pyToCycle)
        ∈ (receiveFlashLoan VAULT ROUTER owner VAULT token0 amount0 fee0 p env).1
  ∧ Effect.swapExactPtForSy (min env.pyMinted p.pyToCycle)
        ∈ (receiveFlashLoan VAULT ROUTER owner VAULT token0 amount0 fee0 p env).1
  ∧ Effect.swapSyForExactPt (min env.pyMinted p.pyToCycle)
        ∈ (receiveFlashLoan VAULT ROUTER owner VAULT token0 amount0 fee0 p env).1
  ∧ Effect.transfer env.syAddr p.yt (min env.syReceived p.pyToCycle)
        ∈ (executeOperation ROUTER owner selfAddr pool pool token0 amount0 fee0
            selfAddr p env).1
  ∧ Effect.swapExactPtForSy (min env.pyMinted p.pyToCycle)
        ∈ (executeOperation ROUTER owner selfAddr pool pool token0 amount0 fee0
            selfAddr p env).1
  ∧ Effect.swapSyForExactPt (min env.pyMinted p.pyToCycle)
        ∈ (executeOperation ROUTER owner selfAddr pool pool token0 amount0 fee0
            selfAddr p env).1
  ∧ min env.pyMinted p.pyToCycle ≤ p.pyToCycle
  ∧ min env.pyMinted p.pyToCycle ≤ env.pyMinted
  ∧ min env.syReceived p.pyToCycle ≤ env.syReceived := by
  have h1 : Effect.transfer env.syAddr p.yt (min env.syReceived p.pyToCycle)
      ∈ arbConvertEffects ROUTER token0 amount0 p env := by
    rw [← ite_gt_eq_min]
    simp [arbConvertEffects]
  have h2 : Effect.swapExactPtForSy (min env.pyMinted p.pyToCycle)
      ∈ arbConvertEffects ROUTER token0 amount0 p env := by
    rw [← ite_gt_eq_min]
    simp [arbConvertEffects]
  have h3 : Effect.swapSyForExactPt (min env.pyMinted p.pyToCycle)
      ∈ arbConvertEffects ROUTER token0 amount0 p env := by
    rw [← ite_gt_eq_min]
    simp [arbConvertEffects]
  exact ⟨convert_mem_receiveFlashLoan VAULT ROUTER owner token0 amount0 fee0 p env hexp _ h1,
         convert_mem_receiveFlashLoan VAULT ROUTER owner token0 amount0 fee0 p env hexp _ h2,
         convert_mem_receiveFlashLoan VAULT ROUTER owner token0 amount0 fee0 p env hexp _ h3,
         convert_mem_executeOperation ROUTER owner selfAddr pool token0 amount0 fee0 p env hexp _ h1,
         convert_mem_executeOperation ROUTER owner selfAddr pool token0 amount0 fee0 p env hexp _ h2,
         convert_mem_executeOperation ROUTER owner selfAddr pool token0 amount0 fee0 p env hexp _ h3,
         Nat.min_le_right _ _, Nat.min_le_left _ _, Nat.min_le_left _ _⟩

/-- Witness for C6 at the concrete fixtures. -/
theorem cycle_double_clamped_witness :
    Effect.transfer 72 60 (min 80 40)
        ∈ (receiveFlashLoan 1 2 3 1 50 100 5 pFix envFix).1
  ∧ Effect.swapExactPtForSy (min 55 40)
        ∈ (receiveFlashLoan 1 2 3 1 50 100 5 pFix envFix).1
  ∧ Effect.swapSyForExactPt (min 55 40)
        ∈ (receiveFlashLoan 1 2 3 1 50 100 5 pFix envFix).1
  ∧ Effect.transfer 72 60 (min 80 40)
        ∈ (executeOperation 2 3 4 5 5 50 100 5 4 pFix envFix).1
  ∧ Effect.swapExactPtForSy (min 55 40)
        ∈ (executeOperation 2 3 4 5 5 50 100 5 4 pFix envFix).1
  ∧ Effect.swapSyForExactPt (min 55 40)
        ∈ (executeOperation 2 3 4 5 5 50 100 5 4 pFix envFix).1
  ∧ min 55 40 ≤ 40 ∧ min 55 40 ≤ 55 ∧ min 80 40 ≤ 80 :=
  cycle_double_clamped 1 2 3 4 5 50 100 5 pFix envFix rfl

/-- C5: in every authorized, non-expired attempt that passes the repayment
check, a computed profit of exactly zero makes both variants fail with
`NoProfit`, while a nonzero profit is transferred to the owner and the
attempt succeeds with that profit. -/
theorem settlement_zero_profit_fails_nonzero_succeeds
    (VAULT ROUTER owner selfAddr pool token0 amount0 fee0 : Nat)
    (p : ArbParams) (env : Env)
    (hexp : env.isExpired = false)
    (hge : amount0 + fee0 ≤ env.underlyingOut)
    (hpu : p.underlying = token0) :
    (env.initialUnderlying + env.underlyingOut - (amount0 + fee0) = 0 →
        (receiveFlashLoan VAULT ROUTER owner VAULT token0 amount0 fee0 p env).2
          = Outcome.err ArbError.NoProfit
      ∧ (executeOperation ROUTER owner selfAddr pool pool token0 amount0 fee0 selfAddr
            p env).2 = Outcome.err ArbError.NoProfit)
  ∧ (env.initialUnderlying + env.underlyingOut - (amount0 + fee0) ≠ 0 →
        receiveFlashLoan VAULT ROUTER owner VAULT token0 amount0 fee0 p env
          = (arbConvertEffects ROUTER token0 amount0 p env
               ++ [Effect.transfer token0 VAULT (amount0 + fee0),
                   Effect.transfer token0 owner
                     (env.initialUnderlying + env.underlyingOut - (amount0 + fee0))],
             Outcome.ok (env.initialUnderlying + env.underlyingOut - (amount0 + fee0)))
      ∧ executeOperation ROUTER owner selfAddr pool pool token0 amount0 fee0 selfAddr p env
          = (arbConvertEffects ROUTER token0 amount0 p env
               ++ [Effect.approve token0 pool (amount0 + fee0),
                   Effect.transfer token0 owner
                     (env.initialUnderlying + env.underlyingOut - (amount0 + fee0))],
             Outcome.ok (env.initialUnderlying + env.underlyingOut - (amount0 + fee0)))) := by
  have hbal : balanceAtSettlement token0 amount0 p env
      = env.initialUnderlying + env.underlyingOut := by
    rw [balanceAtSettlement, if_pos hpu]
  have hnlt : ¬ env.underlyingOut < amount0 + fee0 := by omega
  constructor
  · intro hz
    constructor
    · rw [receiveFlashLoan, if_neg (by simp), if_neg (by simp [hexp]), if_neg hnlt,
        if_pos (by rw [hbal]; exact hz)]
    · rw [executeOperation, if_neg (by simp), if_neg (by simp), if_neg (by simp [hexp]),
        if_neg hnlt, if_pos (by rw [hbal]; exact hz)]
  · intro hz
    constructor
    · rw [receiveFlashLoan, if_neg (by simp), if_neg (by simp [hexp]), if_neg hnlt,
        if_neg (by rw [hbal]; exact hz), hbal]
    · rw [executeOperation, if_neg (by simp), if_neg (by simp), if_neg (by simp [hexp]),
        if_neg hnlt, if_neg (by rw [hbal]; exact hz), hbal]

/-- Witness for C5 in the success case: dust `7` plus realized `95` minus
repayment `90` forwards profit `12` to the owner in both variants. -/
theorem settlement_zero_profit_fails_nonzero_succeeds_witness :
    receiveFlashLoan 1 2 3 1 50 90 0 pFix envFix
      = (arbConvertEffects 2 50 90 pFix envFix
           ++ [Effect.transfer 50 1 90, Effect.transfer 50 3 12], Outcome.ok 12)
  ∧ executeOperation 2 3 4 5 5 50 90 0 4 pFix envFix
      = (arbConvertEffects 2 50 90 pFix envFix
           ++ [Effect.approve 50 5 90, Effect.transfer 50 3 12], Outcome.ok 12) :=
  (settlement_zero_profit_fails_nonzero_succeeds 1 2 3 4 5 50 90 0 pFix envFix
    rfl (by decide) rfl).2 (by decide)

/-- C10: called with the same `ArbParams`, the same borrowed amount and
fee/premium and identical collaborator responses, the two variants produce
equal outcomes (the Balancer variant's post-repayment balance coincides with
the Aave variant's balance-minus-repayment computation, so they forward the
same profit to the owner), their traces share the same conversion-phase
effect sequence, a successful attempt transfers the profit to the owner in
both, and their unauthorized failures correspond (`NotVault` for the Balancer
variant, `Unauthorized` for the Aave variant). -/
theorem variants_agree
    (VAULT ROUTER owner selfAddr pool token0 amount0 fee0 : Nat)
    (p : ArbParams) (env : Env) :
    ((receiveFlashLoan VAULT ROUTER owner VAULT token0 amount0 fee0 p env).2
      = (executeOperation ROUTER owner selfAddr pool pool token0 amount0 fee0 selfAddr
          p env).2)
  ∧ (env.isExpired = false →
      ∃ tB tA,
        (receiveFlashLoan VAULT ROUTER owner VAULT token0 amount0 fee0 p env).1
          = arbConvertEffects ROUTER token0 amount0 p env ++ tB
      ∧ (executeOperation ROUTER owner selfAddr pool pool token0 amount0 fee0 selfAddr
            p env).1
          = arbConvertEffects ROUTER token0 amount0 p env ++ tA)
  ∧ (∀ pr, (receiveFlashLoan VAULT ROUTER owner VAULT token0 amount0 fee0 p env).2
        = Outcome.ok pr →
        Effect.transfer token0 owner pr
            ∈ (receiveFlashLoan VAULT ROUTER owner VAULT token0 amount0 fee0 p env).1
      ∧ Effect.transfer token0 owner pr
            ∈ (executeOperation ROUTER owner selfAddr pool pool token0 amount0 fee0
                selfAddr p env).1)
  ∧ (∀ s, s ≠ VAULT →
      (receiveFlashLoan VAULT ROUTER owner s token0 amount0 fee0 p env).2
        = Outcome.err ArbError.NotVault)
  ∧ (∀ i s, i ≠ selfAddr ∨ s ≠ pool →
      (executeOperation ROUTER owner selfAddr pool s token0 amount0 fee0 i p env).2
        = Outcome.err ArbError.Unauthorized) := by
  refine ⟨?_, ?_, ?_, ?_, ?_⟩
  · by_cases hexp : env.isExpired
    · rw [receiveFlashLoan, if_neg (by simp), if_pos (by simp [hexp]),
        executeOperation, if_neg (by simp), if_neg (by simp), if_pos (by simp [hexp])]
    · by_cases hlt : env.underlyingOut < amount0 + fee0
      · rw [receiveFlashLoan, if_neg (by simp), if_neg (by simp [hexp]), if_pos hlt,
          executeOperation, if_neg (by simp), if_neg (by simp), if_neg (by simp [hexp]),
          if_pos hlt]
      · by_cases hz : balanceAtSettlement token0 amount0 p env - (amount0 + fee0) = 0
        · rw [receiveFlashLoan, if_neg (by simp), if_neg (by simp [hexp]), if_neg hlt,
            if_pos hz, executeOperation, if_neg (by simp), if_neg (by simp),
            if_neg (by simp [hexp]), if_neg hlt, if_pos hz]
        · rw [receiveFlashLoan, if_neg (by simp), if_neg (by simp [hexp]), if_neg hlt,
            if_neg hz, executeOperation, if_neg (by simp), if_neg (by simp),
            if_neg (by simp [hexp]), if_neg hlt, if_neg hz]
  · intro hexp
    by_cases hlt : env.underlyingOut < amount0 + fee0
    · refine ⟨[], [], ?_, ?_⟩
      · rw [receiveFlashLoan, if_neg (by simp), if_neg (by simp [hexp]), if_pos hlt]
        simp
      · rw [executeOperation, if_neg (by simp), if_neg (by simp), if_neg (by simp [hexp]),
          if_pos hlt]
        simp
    · by_cases hz : balanceAtSettlement token0 amount0 p env - (amount0 + fee0) = 0
      · refine ⟨[Effect.transfer token0 VAULT (amount0 + fee0)],
                [Effect.approve token0 pool (amount0 + fee0)], ?_, ?_⟩
        · rw [receiveFlashLoan, if_neg (by simp), if_neg (by simp [hexp]), if_neg hlt,
            if_pos hz]
        · rw [executeOperation, if_neg (by simp), if_neg (by simp), if_neg (by simp [hexp]),
            if_neg hlt, if_pos hz]
      · refine ⟨[Effect.transfer token0 VAULT (amount0 + fee0),
                 Effect.transfer token0 owner
                   (balanceAtSettlement token0 amount0 p env - (amount0 + fee0))],
                [Effect.approve token0 pool (amount0 + fee0),
                 Effect.transfer token0 owner
                   (balanceAtSettlement token0 amount0 p env - (amount0 + fee0))], ?_, ?_⟩
        · rw [receiveFlashLoan, if_neg (by simp), if_neg (by simp [hexp]), if_neg hlt,
            if_neg hz]
        · rw [executeOperation, if_neg (by simp), if_neg (by simp), if_neg (by simp [hexp]),
            if_neg hlt, if_neg hz]
  · intro pr h
    by_cases hexp : env.isExpired
    · rw [receiveFlashLoan, if_neg (by simp), if_pos (by simp [hexp])] at h
      exact absurd h (by simp)
    · by_cases hlt : env.underlyingOut < amount0 + fee0
      · rw [receiveFlashLoan, if_neg (by simp), if_neg (by simp [hexp]), if_pos hlt] at h
        exact absurd h (by simp)
      · by_cases hz : balanceAtSettlement token0 amount0 p env - (amount0 + fee0) = 0
        · rw [receiveFlashLoan, if_neg (by simp), if_neg (by simp [hexp]), if_neg hlt,
            if_pos hz] at h
          exact absurd h (by simp)
        · rw [receiveFlashLoan, if_neg (by simp), if_neg (by simp [hexp]), if_neg hlt,
            if_neg hz] at h
          have h2 : balanceAtSettlement token0 amount0 p env - (amount0 + fee0) = pr :=
            Outcome.ok.inj h
          constructor
          · rw [receiveFlashLoan, if_neg (by simp), if_neg (by simp [hexp]), if_neg hlt,
              if_neg hz]
            simp [h2]
          · rw [executeOperation, if_neg (by simp), if_neg (by simp),
              if_neg (by simp [hexp]), if_neg hlt, if_neg hz]
            simp [h2]
  · intro s hs
    rw [receiveFlashLoan, if_pos hs]
  · intro i s his
    rcases his with his | his
    · rw [executeOperation, if_pos his]
    · unfold executeOperation
      split <;> first | rfl | (rw [if_pos his])

/-- Witness for C10 at the concrete fixtures. -/
theorem variants_agree_witness :
    ((receiveFlashLoan 1 2 3 1 50 90 0 pFix envFix).2
      = (executeOperation 2 3 4 5 5 50 90 0 4 pFix envFix).2)
  ∧ (receiveFlashLoan 1 2 3 9 50 90 0 pFix envFix).2 = Outcome.err ArbError.NotVault
  ∧ (executeOperation 2 3 4 5 5 50 90 0 9 pFix envFix).2
      = Outcome.err ArbError.Unauthorized :=
  ⟨(variants_agree 1 2 3 4 5 50 90 0 pFix envFix).1,
   (variants_agree 1 2 3 4 5 50 90 0 pFix envFix).2.2.2.1 9 (by decide),
   (variants_agree 1 2 3 4 5 50 90 0 pFix envFix).2.2.2.2 9 5 (Or.inl (by decide))⟩

end FlashPendle
